import Mathlib

/-
Verification development for the hephaestus equation-system assembly and
implicit-solve engine.  Definitions are shallow embeddings of the C++
source (av_solver.cpp, hcurl_formulation.cpp, hcurl_solver.cpp,
closed_coil.cpp, open_coil.cpp); machine doubles are modelled as rationals
and mfem vectors as lists of rationals or as functions from DOF indices to
rationals.  Parts of the equation-system core that are not present in the
source tree (equation_system.cpp) are modelled from the specification and
marked as such in their doc comments.
-/

/- ## mfem Array PartialSum and block offset tables (AVSolver constructor,
   av_solver.cpp lines 65 to 72, and HCurlSolver RegisterVariables,
   hcurl_solver.cpp lines 233 to 239). -/

/-- Running sum of a list with a starting accumulator: entry i of the result
is acc plus the sum of entries 0..i of the input.  This is the semantics of
the in-place mfem Array PartialSum. -/
def runningSumFrom (acc : ℤ) : List ℤ → List ℤ
  | [] => []
  | x :: xs => (acc + x) :: runningSumFrom (acc + x) xs

/-- mfem Array PartialSum as called on true_offsets. -/
def arrayPartialSum (l : List ℤ) : List ℤ := runningSumFrom 0 l

/-- Offset table built the way both solvers build it: first entry set to 0,
each following entry set to a variable size, then PartialSum. -/
def mkTrueOffsets (sizes : List ℤ) : List ℤ := arrayPartialSum (0 :: sizes)

/-- true_offsets as computed in the AVSolver constructor: [0, H1 size,
HCurl size] followed by PartialSum (av_solver.cpp lines 65 to 69). -/
def avTrueOffsets (h1VSize hcurlVSize : ℤ) : List ℤ :=
  arrayPartialSum [0, h1VSize, hcurlVSize]

/-- true_offsets as computed in HCurlSolver RegisterVariables: [0, u size]
followed by PartialSum (hcurl_solver.cpp lines 233 to 236). -/
def hcurlSolverTrueOffsets (uVSize : ℤ) : List ℤ := arrayPartialSum [0, uVSize]

lemma runningSumFrom_getElem? :
    ∀ (l : List ℤ) (acc : ℤ) (i : ℕ), i < l.length →
      (runningSumFrom acc l)[i]? = some (acc + (l.take (i + 1)).sum)
  | [], _, i, h => by simp at h
  | x :: xs, acc, 0, _ => by simp [runningSumFrom]
  | x :: xs, acc, i + 1, h => by
      have hx : i < xs.length := by simpa using h
      simp only [runningSumFrom, List.getElem?_cons_succ]
      rw [runningSumFrom_getElem? xs (acc + x) i hx]
      simp [add_assoc]

/- ## AVSolver ImplicitSolve caching state (av_solver.cpp lines 136 to 232,
   buildA1 lines 234 to 251) and HCurlOperator ImplicitSolve
   (hcurl_formulation.cpp lines 166 to 187). -/

/-- State of the AVSolver objects that the a1-block part of ImplicitSolve
reads or writes.  The assembled a1 bilinear form is determined by the dt it
was built with (its integrators are beta and dt times alpha), so it is
modelled as the dt value used at the last buildA1, with none standing for
the NULL pointer.  m1 and curlCurl are assembled once in Init and only read
in ImplicitSolve, so an abstract identity token suffices.  a1Builds and
solverBuilds count constructions of the a1 form and of the pcg_a1 solver. -/
structure AVState where
  dt_A1 : ℚ
  a1 : Option ℚ
  m1 : ℕ
  curlCurl : ℕ
  ams_a1 : Bool
  pcg_a1 : Bool
  a1Builds : ℕ
  solverBuilds : ℕ
deriving DecidableEq

/-- The relative tolerance 1.0e-12 appearing in av_solver.cpp line 211. -/
def avRelTol : ℚ := 1 / 1000000000000

/-- AVSolver buildA1: deletes and reassembles the a1 bilinear form with the
current dt and records dt_A1 := dtCoef.constant (av_solver.cpp 234-251). -/
def avBuildA1 (dt : ℚ) (s : AVState) : AVState :=
  { s with a1 := some dt, dt_A1 := dt, a1Builds := s.a1Builds + 1 }

/-- The rebuild condition of av_solver.cpp line 211:
a1 == NULL or fabs(dt - dt_A1) > 1.0e-12 * dt. -/
def avRebuildCondition (dt : ℚ) (s : AVState) : Bool :=
  s.a1.isNone || decide (|dt - s.dt_A1| > avRelTol * dt)

/-- Lines 211 to 213 of av_solver.cpp: rebuild a1 when the condition holds,
otherwise keep the cached form. -/
def avFormStage (dt : ℚ) (s : AVState) : AVState :=
  if avRebuildCondition dt s then avBuildA1 dt s else s

/-- Lines 217 to 220 of av_solver.cpp: the AMS preconditioner is created
only when it is NULL. -/
def avAMSStage (s : AVState) : AVState :=
  if s.ams_a1 then s else { s with ams_a1 := true }

/-- Lines 221 to 227 of av_solver.cpp: the PCG solver is created only when
it is NULL. -/
def avPCGStage (s : AVState) : AVState :=
  if s.pcg_a1 then s
  else { s with pcg_a1 := true, solverBuilds := s.solverBuilds + 1 }

/-- The caching-relevant effect of one AVSolver ImplicitSolve invocation on
the a1 block: conditional form rebuild, then conditional preconditioner and
solver construction (av_solver.cpp lines 211 to 227). -/
def avImplicitSolveA1 (dt : ℚ) (s : AVState) : AVState :=
  avPCGStage (avAMSStage (avFormStage dt s))

/-- State of HCurlOperator relevant to solver caching: the dt of the last
invocation, whether a solver object is held, and how many solver instances
have been constructed. -/
structure HCurlOpState where
  dt_cached : ℚ
  a1_solver : Bool
  solverBuilds : ℕ
deriving DecidableEq

/-- The solver handling of HCurlOperator ImplicitSolve: line 181 of
hcurl_formulation.cpp assigns a freshly constructed DefaultHCurlPCGSolver
to a1_solver on every invocation, with no guard. -/
def hcurlImplicitSolve (dt : ℚ) (s : HCurlOpState) : HCurlOpState :=
  { dt_cached := dt, a1_solver := true, solverBuilds := s.solverBuilds + 1 }

@[simp] lemma avBuildA1_m1 (dt : ℚ) (s : AVState) :
    (avBuildA1 dt s).m1 = s.m1 := rfl

@[simp] lemma avBuildA1_curlCurl (dt : ℚ) (s : AVState) :
    (avBuildA1 dt s).curlCurl = s.curlCurl := rfl

@[simp] lemma avFormStage_pcg (dt : ℚ) (s : AVState) :
    (avFormStage dt s).pcg_a1 = s.pcg_a1 := by
  unfold avFormStage; split <;> rfl

@[simp] lemma avFormStage_solverBuilds (dt : ℚ) (s : AVState) :
    (avFormStage dt s).solverBuilds = s.solverBuilds := by
  unfold avFormStage; split <;> rfl

@[simp] lemma avFormStage_m1 (dt : ℚ) (s : AVState) :
    (avFormStage dt s).m1 = s.m1 := by
  unfold avFormStage; split <;> rfl

@[simp] lemma avFormStage_curlCurl (dt : ℚ) (s : AVState) :
    (avFormStage dt s).curlCurl = s.curlCurl := by
  unfold avFormStage; split <;> rfl

@[simp] lemma avAMSStage_pcg (s : AVState) :
    (avAMSStage s).pcg_a1 = s.pcg_a1 := by
  unfold avAMSStage; split <;> rfl

@[simp] lemma avAMSStage_solverBuilds (s : AVState) :
    (avAMSStage s).solverBuilds = s.solverBuilds := by
  unfold avAMSStage; split <;> rfl

@[simp] lemma avAMSStage_m1 (s : AVState) : (avAMSStage s).m1 = s.m1 := by
  unfold avAMSStage; split <;> rfl

@[simp] lemma avAMSStage_curlCurl (s : AVState) :
    (avAMSStage s).curlCurl = s.curlCurl := by
  unfold avAMSStage; split <;> rfl

@[simp] lemma avAMSStage_a1 (s : AVState) : (avAMSStage s).a1 = s.a1 := by
  unfold avAMSStage; split <;> rfl

@[simp] lemma avAMSStage_a1Builds (s : AVState) :
    (avAMSStage s).a1Builds = s.a1Builds := by
  unfold avAMSStage; split <;> rfl

@[simp] lemma avPCGStage_m1 (s : AVState) : (avPCGStage s).m1 = s.m1 := by
  unfold avPCGStage; split <;> rfl

@[simp] lemma avPCGStage_curlCurl (s : AVState) :
    (avPCGStage s).curlCurl = s.curlCurl := by
  unfold avPCGStage; split <;> rfl

@[simp] lemma avPCGStage_a1 (s : AVState) : (avPCGStage s).a1 = s.a1 := by
  unfold avPCGStage; split <;> rfl

@[simp] lemma avPCGStage_a1Builds (s : AVState) :
    (avPCGStage s).a1Builds = s.a1Builds := by
  unfold avPCGStage; split <;> rfl

/-- Claim C1 counterexample: invoke HCurlOperator ImplicitSolve twice with
the same dt.  After the first invocation a solver instance exists, the
operator is structurally unchanged and dt has not moved at all, yet the
second invocation constructs another solver instance instead of reusing
the cached one (hcurl_formulation.cpp line 181 assigns unconditionally). -/
theorem c1_counterexample :
    (hcurlImplicitSolve 1 ⟨1, false, 0⟩).a1_solver = true ∧
    (hcurlImplicitSolve 1 (hcurlImplicitSolve 1 ⟨1, false, 0⟩)).solverBuilds ≠
      (hcurlImplicitSolve 1 ⟨1, false, 0⟩).solverBuilds := by
  decide

/-- Claim C1 (amended): the two problem operators follow different solver
reuse policies.  AVSolver constructs its a1 solver only in an invocation
where none exists yet and reuses the cached instance in every other
invocation, even when dt moved beyond the relative tolerance (the dt
tolerance at av_solver.cpp line 211 governs rebuilding of the a1 bilinear
form, not of the solver).  HCurlOperator constructs a new solver instance
on every invocation and never reuses one. -/
theorem c1_amended (dt : ℚ) (s : AVState) (t : HCurlOpState) :
    (s.pcg_a1 = true → (avImplicitSolveA1 dt s).solverBuilds = s.solverBuilds) ∧
    (s.pcg_a1 = false →
      (avImplicitSolveA1 dt s).solverBuilds = s.solverBuilds + 1) ∧
    (hcurlImplicitSolve dt t).solverBuilds = t.solverBuilds + 1 := by
  refine ⟨?_, ?_, rfl⟩
  · intro h
    unfold avImplicitSolveA1 avPCGStage
    have hp : (avAMSStage (avFormStage dt s)).pcg_a1 = true := by simp [h]
    rw [hp]
    simp
  · intro h
    unfold avImplicitSolveA1 avPCGStage
    have hp : (avAMSStage (avFormStage dt s)).pcg_a1 = false := by simp [h]
    rw [hp]
    simp

/-- Claim C1 witness: with a solver already cached and dt moved from 1 to 2
(far beyond the relative tolerance), AVSolver still reuses the cached
solver, and HCurlOperator constructs a fresh one. -/
theorem c1_witness :
    (avImplicitSolveA1 2 ⟨1, some 1, 5, 7, true, true, 1, 1⟩).solverBuilds = 1 ∧
    (hcurlImplicitSolve 2 ⟨1, true, 3⟩).solverBuilds = 3 + 1 :=
  ⟨(c1_amended 2 ⟨1, some 1, 5, 7, true, true, 1, 1⟩ ⟨1, true, 3⟩).1 rfl,
   (c1_amended 2 ⟨1, some 1, 5, 7, true, true, 1, 1⟩ ⟨1, true, 3⟩).2.2⟩

/-- Claim C6: when dt moves beyond the relative tolerance, an AVSolver
ImplicitSolve invocation rebuilds the dt-dependent a1 bilinear form (the
block holding the dt-scaled curl-curl term) with the new dt, while the
dt-independent assembled blocks m1 and curlCurl, built once in Init, are
left untouched. -/
theorem c6_dt_rebuild (dt : ℚ) (s : AVState)
    (h : |dt - s.dt_A1| > avRelTol * dt) :
    (avImplicitSolveA1 dt s).a1 = some dt ∧
    (avImplicitSolveA1 dt s).a1Builds = s.a1Builds + 1 ∧
    (avImplicitSolveA1 dt s).m1 = s.m1 ∧
    (avImplicitSolveA1 dt s).curlCurl = s.curlCurl := by
  have hc : avRebuildCondition dt s = true := by
    unfold avRebuildCondition
    rw [decide_eq_true h]
    simp
  have hf : avFormStage dt s = avBuildA1 dt s := by
    unfold avFormStage
    rw [hc]
    simp
  unfold avImplicitSolveA1
  rw [hf]
  simp [avBuildA1]

/-- Claim C6 witness: stepping from a state whose a1 form was built with
dt = 0 to dt = 1 exceeds the tolerance, rebuilds a1 with the new dt and
leaves m1 and curlCurl unchanged. -/
theorem c6_witness :
    |1 - (0 : ℚ)| > avRelTol * 1 ∧
    (avImplicitSolveA1 1 ⟨0, some 0, 3, 4, true, true, 0, 0⟩).a1 = some 1 ∧
    (avImplicitSolveA1 1 ⟨0, some 0, 3, 4, true, true, 0, 0⟩).m1 = 3 ∧
    (avImplicitSolveA1 1 ⟨0, some 0, 3, 4, true, true, 0, 0⟩).curlCurl = 4 :=
  ⟨by norm_num [avRelTol],
   (c6_dt_rebuild 1 ⟨0, some 0, 3, 4, true, true, 0, 0⟩
      (by norm_num [avRelTol])).1,
   (c6_dt_rebuild 1 ⟨0, some 0, 3, 4, true, true, 0, 0⟩
      (by norm_num [avRelTol])).2.2.1,
   (c6_dt_rebuild 1 ⟨0, some 0, 3, 4, true, true, 0, 0⟩
      (by norm_num [avRelTol])).2.2.2⟩

/- ## Source Init dependency resolution (closed_coil.cpp lines 56 to 92 and
   open_coil.cpp lines 135 to 169). -/

/-- Outcome of a source Init call: aborted carries the mfem_error message,
continued carries the console warning text when one was printed. -/
inductive SourceInitResult where
  | aborted (msg : String)
  | continued (warning : Option String)
deriving DecidableEq

/-- True exactly when the Init call aborted the run. -/
def SourceInitResult.isAbortedRun : SourceInitResult → Bool
  | .aborted _ => true
  | .continued _ => false

/-- Dependency resolution of ClosedCoilSolver Init (closed_coil.cpp lines
56 to 92): a missing HCurl FE space or missing J gridfunction calls
mfem_error; a missing current coefficient only prints a message and
replaces Itotal_ with a unit ConstantCoefficient, then Init continues. -/
def closedCoilInit (fespaces gridfunctions coefficients : List String)
    (hcurlFESpaceName jGridFunctionName iFuncCoefName : String) :
    SourceInitResult :=
  if hcurlFESpaceName ∉ fespaces then
    .aborted (hcurlFESpaceName ++
      " not found in fespaces when creating ClosedCoilSolver")
  else if jGridFunctionName ∉ gridfunctions then
    .aborted (jGridFunctionName ++
      " not found in gridfunctions when creating ClosedCoilSolver")
  else if iFuncCoefName ∉ coefficients then
    .continued (some (iFuncCoefName ++
      " not found in coefficients when creating ClosedCoilSolver. Assuming unit current. "))
  else
    .continued none

/-- Dependency resolution of OpenCoilSolver Init (open_coil.cpp lines 135
to 169): a missing current coefficient or missing source gridfunction calls
mfem_error; a missing potential gridfunction only prints a message and Init
continues with V_parent_ left null. -/
def openCoilInit (gridfunctions coefficients : List String)
    (jGfName vGfName iCoefName : String) : SourceInitResult :=
  if iCoefName ∉ coefficients then
    .aborted (iCoefName ++
      " not found in coefficients when creating OpenCoilSolver")
  else if jGfName ∉ gridfunctions then
    .aborted (jGfName ++
      " not found in gridfunctions when creating OpenCoilSolver")
  else if vGfName ∉ gridfunctions then
    .continued (some (vGfName ++
      " not found in gridfunctions when creating OpenCoilSolver. "))
  else
    .continued none

/-- Claim C2 counterexample: ClosedCoilSolver Init called with registries
holding its FE space and gridfunction but not its named current
coefficient does not abort the run; it continues past the missing named
dependency with an assumed unit current (closed_coil.cpp lines 78 to 84). -/
theorem c2_counterexample :
    (closedCoilInit ["HCurl"] ["J"] [] "HCurl" "J" "I").isAbortedRun
      = false := by
  decide

/-- Claim C2 (amended): a missing FE space or missing J gridfunction in
ClosedCoilSolver Init, and a missing current coefficient or missing source
gridfunction in OpenCoilSolver Init, abort the run with a message naming
the missing entity and the requesting component; but a missing current
coefficient in ClosedCoilSolver Init and a missing potential gridfunction
in OpenCoilSolver Init only print a message and let Init continue. -/
theorem c2_amended (fes gfs cfs : List String) (hc j v i : String) :
    (hc ∉ fes → closedCoilInit fes gfs cfs hc j i =
      .aborted (hc ++ " not found in fespaces when creating ClosedCoilSolver")) ∧
    (hc ∈ fes → j ∉ gfs → closedCoilInit fes gfs cfs hc j i =
      .aborted (j ++ " not found in gridfunctions when creating ClosedCoilSolver")) ∧
    (hc ∈ fes → j ∈ gfs → i ∉ cfs → closedCoilInit fes gfs cfs hc j i =
      .continued (some (i ++
        " not found in coefficients when creating ClosedCoilSolver. Assuming unit current. "))) ∧
    (i ∉ cfs → openCoilInit gfs cfs j v i =
      .aborted (i ++ " not found in coefficients when creating OpenCoilSolver")) ∧
    (i ∈ cfs → j ∉ gfs → openCoilInit gfs cfs j v i =
      .aborted (j ++ " not found in gridfunctions when creating OpenCoilSolver")) ∧
    (i ∈ cfs → j ∈ gfs → v ∉ gfs → openCoilInit gfs cfs j v i =
      .continued (some (v ++
        " not found in gridfunctions when creating OpenCoilSolver. "))) := by
  refine ⟨?_, ?_, ?_, ?_, ?_, ?_⟩
  · intro h1
    simp [closedCoilInit, h1]
  · intro h1 h2
    simp [closedCoilInit, h1, h2]
  · intro h1 h2 h3
    simp [closedCoilInit, h1, h2, h3]
  · intro h1
    simp [openCoilInit, h1]
  · intro h1 h2
    simp [openCoilInit, h1, h2]
  · intro h1 h2 h3
    simp [openCoilInit, h1, h2, h3]

/-- Claim C2 witness: concrete registries exercising an aborting branch of
each solver and the two continuing branches. -/
theorem c2_witness :
    closedCoilInit [] ["J"] ["I"] "HCurl" "J" "I" =
      .aborted ("HCurl" ++ " not found in fespaces when creating ClosedCoilSolver") ∧
    closedCoilInit ["HCurl"] ["J"] [] "HCurl" "J" "I" =
      .continued (some ("I" ++
        " not found in coefficients when creating ClosedCoilSolver. Assuming unit current. ")) ∧
    openCoilInit ["J"] [] "J" "V" "I" =
      .aborted ("I" ++ " not found in coefficients when creating OpenCoilSolver") ∧
    openCoilInit ["J"] ["I"] "J" "V" "I" =
      .continued (some ("V" ++
        " not found in gridfunctions when creating OpenCoilSolver. ")) :=
  ⟨(c2_amended [] ["J"] ["I"] "HCurl" "J" "V" "I").1 (by decide),
   (c2_amended ["HCurl"] ["J"] [] "HCurl" "J" "V" "I").2.2.1
      (by decide) (by decide) (by decide),
   (c2_amended ["HCurl"] ["J"] [] "HCurl" "J" "V" "I").2.2.2.1 (by decide),
   (c2_amended ["HCurl"] ["J"] ["I"] "HCurl" "J" "V" "I").2.2.2.2.2
      (by decide) (by decide) (by decide)⟩

/- ## Post-solve handling of the implicit step (hcurl_formulation.cpp lines
   185 to 186 and av_solver.cpp lines 228 to 231). -/

/-- Result of the opaque iterative solver Mult: the solution vector it left
in x, whether it converged within its iteration budget, and how many
iterations it used.  The solver collaborator is external; this records
everything it could report. -/
structure PCGOutcome where
  x : List ℚ
  converged : Bool
  iterations : ℕ
deriving DecidableEq

/-- What an implicit step reports after the solve. -/
inductive StepOutcome where
  | success (solution : List ℚ)
  | failure (iterations : ℕ)
deriving DecidableEq

/-- True exactly when the step reported a failure. -/
def StepOutcome.isFailureReport : StepOutcome → Bool
  | .success _ => false
  | .failure _ => true

/-- The code after the solve in both implicit steps: HCurlOperator
ImplicitSolve runs a1_solver->Mult(trueRhs, trueX) then immediately
RecoverFEMSolution (hcurl_formulation.cpp lines 185 to 186), and AVSolver
ImplicitSolve runs pcg_a1->Mult(*B1, *X1) then RecoverFEMSolution
(av_solver.cpp lines 229 to 231).  Neither inspects the convergence state
or iteration count of the solver, and both return void: the recovered
solution is reported unconditionally. -/
def implicitStepPostSolve (recover : List ℚ → List ℚ) (out : PCGOutcome) :
    StepOutcome :=
  StepOutcome.success (recover out.x)

/-- Claim C3 counterexample: a solver outcome that exhausted a 1000
iteration budget without converging is still reported as a success carrying
the recovered (silently wrong) solution; no failure is ever produced. -/
theorem c3_counterexample :
    (implicitStepPostSolve id ⟨[1], false, 1000⟩).isFailureReport = false ∧
    implicitStepPostSolve id ⟨[1], false, 1000⟩ = .success [1] := by
  decide

/-- Claim C3 (amended): the implicit step ignores the convergence status of
the iterative solver entirely.  It unconditionally reports success with the
recovered solution, and its result is identical whatever the convergence
flag and iteration count were. -/
theorem c3_amended (recover : List ℚ → List ℚ) (out : PCGOutcome) :
    implicitStepPostSolve recover out = .success (recover out.x) ∧
    implicitStepPostSolve recover out =
      implicitStepPostSolve recover ⟨out.x, true, 0⟩ :=
  ⟨rfl, rfl⟩

/- ## OpenCoilSolver Apply and SPSCurrent, ClosedCoilSolver Apply
   (open_coil.cpp lines 171 to 192 and 246 to 287, closed_coil.cpp lines
   94 to 104). -/

/-- mfem Vector Add(a, V): this += a * V, pointwise over matching entries. -/
def lfAdd (a : ℚ) (v lf : List ℚ) : List ℚ :=
  List.zipWith (fun x y => x + a * y) lf v

/-- The child gridfunctions J_ and V_ owned by an OpenCoilSolver. -/
structure OpenCoilChild where
  J : List ℚ
  V : List ℚ
deriving DecidableEq

/-- State after an OpenCoilSolver Apply call: the child gridfunctions, the
parent J and V gridfunctions, and the linear form. -/
structure OCApplyResult where
  child : OpenCoilChild
  Jparent : List ℚ
  Vparent : Option (List ℚ)
  lf : List ℚ
deriving DecidableEq

/-- OpenCoilSolver Apply (open_coil.cpp lines 171 to 192): evaluate the
current coefficient to I, scale the child J_ by I, Transfer it into the
parent J, divide the child back by I, do the same for V_ when a parent V
exists, then lf->Add(1.0, *J_parent_).  The submesh Transfer (which writes
child values into the parent dof range) is abstracted as the function tr
from child and old parent values to new parent values. -/
def openCoilApply (tr : List ℚ → List ℚ → List ℚ) (I : ℚ)
    (c : OpenCoilChild) (Jparent : List ℚ) (Vparent : Option (List ℚ))
    (lf : List ℚ) : OCApplyResult :=
  match Vparent with
  | some vp =>
      { child := ⟨(c.J.map (fun a => a * I)).map (fun a => a / I),
                  (c.V.map (fun a => a * I)).map (fun a => a / I)⟩,
        Jparent := tr (c.J.map (fun a => a * I)) Jparent,
        Vparent := some (tr (c.V.map (fun a => a * I)) vp),
        lf := lfAdd 1 (tr (c.J.map (fun a => a * I)) Jparent) lf }
  | none =>
      { child := ⟨(c.J.map (fun a => a * I)).map (fun a => a / I), c.V⟩,
        Jparent := tr (c.J.map (fun a => a * I)) Jparent,
        Vparent := none,
        lf := lfAdd 1 (tr (c.J.map (fun a => a * I)) Jparent) lf }

/-- Lines 102 to 103 of closed_coil.cpp: *lf = 0.0 followed by
lf->Add(1.0, *J_parent_). -/
def ccFinalizeLF (r : OCApplyResult) : OCApplyResult :=
  { r with lf := lfAdd 1 r.Jparent (r.lf.map (fun _ => (0 : ℚ))) }

/-- ClosedCoilSolver Apply (closed_coil.cpp lines 94 to 104): run the two
inner OpenCoilSolver Apply calls on the shared parent J and the linear
form, then zero the linear form and add the parent J to it. -/
def closedCoilApply (tr : List ℚ → List ℚ → List ℚ) (I : ℚ)
    (c0 c1 : OpenCoilChild) (Jparent : List ℚ) (Vparent : Option (List ℚ))
    (lf : List ℚ) : OCApplyResult :=
  ccFinalizeLF (openCoilApply tr I c1
    (openCoilApply tr I c0 Jparent Vparent lf).Jparent
    (openCoilApply tr I c0 Jparent Vparent lf).Vparent
    (openCoilApply tr I c0 Jparent Vparent lf).lf)

/-- The normalisation at the end of OpenCoilSolver SPSCurrent
(open_coil.cpp lines 283 to 287): *J_ /= abs(flux) and *V_ /= abs(flux),
with no guard against a zero flux. -/
def spsNormalize (flux : ℚ) (J V : List ℚ) : List ℚ × List ℚ :=
  (J.map (fun a => a / |flux|), V.map (fun a => a / |flux|))

@[simp] lemma openCoilApply_Jparent (tr : List ℚ → List ℚ → List ℚ) (I : ℚ)
    (c : OpenCoilChild) (Jp : List ℚ) (Vp : Option (List ℚ)) (lf : List ℚ) :
    (openCoilApply tr I c Jp Vp lf).Jparent =
      tr (c.J.map (fun a => a * I)) Jp := by
  cases Vp <;> rfl

@[simp] lemma openCoilApply_Vparent (tr : List ℚ → List ℚ → List ℚ) (I : ℚ)
    (c : OpenCoilChild) (Jp : List ℚ) (Vp : Option (List ℚ)) (lf : List ℚ) :
    (openCoilApply tr I c Jp Vp lf).Vparent =
      Vp.map (fun vp => tr (c.V.map (fun a => a * I)) vp) := by
  cases Vp <;> rfl

@[simp] lemma openCoilApply_lf (tr : List ℚ → List ℚ → List ℚ) (I : ℚ)
    (c : OpenCoilChild) (Jp : List ℚ) (Vp : Option (List ℚ)) (lf : List ℚ) :
    (openCoilApply tr I c Jp Vp lf).lf =
      lfAdd 1 (tr (c.J.map (fun a => a * I)) Jp) lf := by
  cases Vp <;> rfl

@[simp] lemma lfAdd_length (a : ℚ) (v lf : List ℚ) :
    (lfAdd a v lf).length = min lf.length v.length := by
  simp [lfAdd]

lemma map_zero_of_length_eq {l1 l2 : List ℚ} (h : l1.length = l2.length) :
    l1.map (fun _ => (0 : ℚ)) = l2.map (fun _ => (0 : ℚ)) := by
  rw [List.map_const', List.map_const', h]

/-- Claim C4 counterexample: a linear form holding a prior contribution 5
is passed to ClosedCoilSolver Apply (with identity-like submesh transfer,
unit current, zero coil fields).  The result is not the prior form plus the
source contribution: the prior entry is wiped by *lf = 0.0 at
closed_coil.cpp line 102. -/
theorem c4_counterexample :
    (closedCoilApply (fun c _ => c) 1 ⟨[0], [0]⟩ ⟨[0], [0]⟩ [0] none [5]).lf ≠
      lfAdd 1
        (closedCoilApply (fun c _ => c) 1 ⟨[0], [0]⟩ ⟨[0], [0]⟩ [0] none
          [5]).Jparent
        [5] := by
  norm_num [closedCoilApply, ccFinalizeLF, openCoilApply, lfAdd]

/-- Claim C4 (amended): OpenCoilSolver Apply only adds its contribution,
leaving every prior entry of the linear form in place (the result is the
prior form plus the transferred parent current); ClosedCoilSolver Apply
instead zeroes the linear form before adding the parent current, so its
result is independent of whatever contributions the form held before the
call. -/
theorem c4_amended (tr : List ℚ → List ℚ → List ℚ) (I : ℚ)
    (c c0 c1 : OpenCoilChild) (Jp : List ℚ) (Vp : Option (List ℚ))
    (lf lf1 lf2 : List ℚ) :
    (openCoilApply tr I c Jp Vp lf).lf =
      lfAdd 1 (openCoilApply tr I c Jp Vp lf).Jparent lf ∧
    (lf1.length = lf2.length →
      (closedCoilApply tr I c0 c1 Jp Vp lf1).lf =
        (closedCoilApply tr I c0 c1 Jp Vp lf2).lf) := by
  constructor
  · simp
  · intro hlen
    unfold closedCoilApply ccFinalizeLF
    simp only [openCoilApply_lf, openCoilApply_Jparent, openCoilApply_Vparent]
    congr 1
    apply map_zero_of_length_eq
    simp [hlen]

/-- Claim C4 witness: with concrete data the open coil result equals the
prior form plus the parent current, and the closed coil result is the same
for two different prior forms of equal length. -/
theorem c4_witness :
    (openCoilApply (fun c _ => c) 2 ⟨[3], [4]⟩ [0] none [7]).lf =
      lfAdd 1 (openCoilApply (fun c _ => c) 2 ⟨[3], [4]⟩ [0] none [7]).Jparent
        [7] ∧
    (closedCoilApply (fun c _ => c) 2 ⟨[3], [4]⟩ ⟨[3], [4]⟩ [0] none [7]).lf =
      (closedCoilApply (fun c _ => c) 2 ⟨[3], [4]⟩ ⟨[3], [4]⟩ [0] none
        [9]).lf :=
  ⟨(c4_amended (fun c _ => c) 2 ⟨[3], [4]⟩ ⟨[3], [4]⟩ ⟨[3], [4]⟩ [0] none
      [7] [7] [9]).1,
   (c4_amended (fun c _ => c) 2 ⟨[3], [4]⟩ ⟨[3], [4]⟩ ⟨[3], [4]⟩ [0] none
      [7] [7] [9]).2 rfl⟩

/-- Claim C9: the unguarded scale-transfer-unscale in OpenCoilSolver Apply
restores the child fields J_ and V_ to their pre-call values whenever the
evaluated current I is nonzero, and the SPSCurrent normalisation by the
absolute flux is invertible whenever the flux is nonzero; at I = 0 the
child J is destroyed rather than restored, and at zero flux the
normalisation collapses the field, so the precondition is necessary. -/
theorem c9_division_guard (tr : List ℚ → List ℚ → List ℚ) (I flux : ℚ)
    (c : OpenCoilChild) (Jp : List ℚ) (Vp : Option (List ℚ))
    (lf J V : List ℚ) (hI : I ≠ 0) (hflux : flux ≠ 0) :
    (openCoilApply tr I c Jp Vp lf).child = c ∧
    (spsNormalize flux J V).1.map (fun a => a * |flux|) = J ∧
    (spsNormalize flux J V).2.map (fun a => a * |flux|) = V ∧
    (openCoilApply (fun a _ => a) 0 ⟨[1], []⟩ [] none []).child ≠
      (⟨[1], []⟩ : OpenCoilChild) ∧
    spsNormalize 0 [1] [] = ([0], []) := by
  have key : ∀ l : List ℚ, (l.map (fun a => a * I)).map (fun a => a / I) = l := by
    intro l
    rw [List.map_map]
    have hcomp : ((fun a => a / I) ∘ fun a => a * I) = fun a : ℚ => a := by
      funext a
      simp only [Function.comp]
      exact mul_div_cancel_right₀ a hI
    rw [hcomp, List.map_id']
  have habs : |flux| ≠ 0 := abs_ne_zero.mpr hflux
  have keyf : ∀ l : List ℚ,
      (l.map (fun a => a / |flux|)).map (fun a => a * |flux|) = l := by
    intro l
    rw [List.map_map]
    have hcomp : ((fun a => a * |flux|) ∘ fun a => a / |flux|)
        = fun a : ℚ => a := by
      funext a
      simp only [Function.comp]
      exact div_mul_cancel₀ a habs
    rw [hcomp, List.map_id']
  refine ⟨?_, keyf J, keyf V, by norm_num [openCoilApply],
    by norm_num [spsNormalize]⟩
  cases Vp with
  | some vp => simp [openCoilApply, key]
  | none => simp [openCoilApply, key]

/-- Claim C9 witness: a concrete nonzero current and flux for which the
round trip restores the fields. -/
theorem c9_witness :
    (2 : ℚ) ≠ 0 ∧ (3 : ℚ) ≠ 0 ∧
    (openCoilApply (fun a _ => a) 2 ⟨[5], [6]⟩ [0] none []).child =
      (⟨[5], [6]⟩ : OpenCoilChild) ∧
    (spsNormalize 3 [4] [7]).1.map (fun a => a * |(3 : ℚ)|) = [4] :=
  ⟨by norm_num, by norm_num,
   (c9_division_guard (fun a _ => a) 2 3 ⟨[5], [6]⟩ [0] none [] [4] [7]
      (by norm_num) (by norm_num)).1,
   (c9_division_guard (fun a _ => a) 2 3 ⟨[5], [6]⟩ [0] none [] [4] [7]
      (by norm_num) (by norm_num)).2.1⟩

/-- Claim C5: the block offset table built by the solvers (first entry 0,
then per-variable sizes, then mfem PartialSum) equals the prefix sums of
the registered variable sizes in registration order, and the two concrete
tables in the source have exactly that shape. -/
theorem c5_offsets_prefix_sums (sizes : List ℤ)
    (h1VSize hcurlVSize uVSize : ℤ) (i : ℕ) (h : i ≤ sizes.length) :
    (mkTrueOffsets sizes)[i]? = some ((sizes.take i).sum) ∧
    avTrueOffsets h1VSize hcurlVSize = [0, h1VSize, h1VSize + hcurlVSize] ∧
    hcurlSolverTrueOffsets uVSize = [0, uVSize] := by
  refine ⟨?_, ?_, ?_⟩
  · have hi : i < (0 :: sizes).length := by
      simpa using Nat.lt_succ_of_le h
    unfold mkTrueOffsets arrayPartialSum
    rw [runningSumFrom_getElem? (0 :: sizes) 0 i hi]
    simp [List.take_succ_cons]
  · simp [avTrueOffsets, arrayPartialSum, runningSumFrom, add_assoc]
  · simp [hcurlSolverTrueOffsets, arrayPartialSum, runningSumFrom]

/-- Claim C5 witness: for two variables of sizes 2 and 3 the offsets are
0, 2, 5, matching the prefix sums. -/
theorem c5_witness :
    (mkTrueOffsets [2, 3])[2]? = some (([2, 3].take 2).sum) ∧
    avTrueOffsets 2 3 = [0, 2, 2 + 3] :=
  ⟨(c5_offsets_prefix_sums [2, 3] 2 3 0 2 (by norm_num)).1,
   (c5_offsets_prefix_sums [2, 3] 2 3 0 2 (by norm_num)).2.1⟩

/- ## Equation system assembly and linear-system round trip.  The
   EquationSystem implementation (equation_system.cpp) is not part of the
   source tree; only its callers in hcurl_formulation.cpp are.  These
   definitions are therefore modelled from the specification. -/

/-- The inputs an assembly pass depends on: the stored time step and the
current coefficient, boundary and source data. -/
structure EqInputs where
  dt : ℚ
  coefVals : ℕ → ℚ
  bcData : ℕ → ℚ
  sourceData : ℕ → ℚ

/-- Modelled from the spec: the Equation System owns, per test variable,
the list of kernels contributing to its forms; equation_system.cpp is
absent from the source tree.  A kernel is its contribution to a form as a
function of the assembly inputs, added into the form on each apply pass. -/
structure EqSystemModel where
  blfKernels : List (EqInputs → ℕ → ℚ)
  lfKernels : List (EqInputs → ℕ → ℚ)

/-- Pointwise addition of a contribution into a form. -/
def formAdd (g f : ℕ → ℚ) : ℕ → ℚ := fun i => f i + g i

/-- Apply every kernel of a bucket in registration order, each adding its
contribution into the form. -/
def applyKernels (ks : List (EqInputs → ℕ → ℚ)) (inp : EqInputs)
    (form : ℕ → ℚ) : ℕ → ℚ :=
  ks.foldl (fun f k => formAdd (k inp) f) form

/-- Clearing a form before re-assembly: every entry becomes zero whatever
the form held. -/
def clearForm (_form : ℕ → ℚ) : ℕ → ℚ := fun _ => 0

/-- Modelled from the spec: updateEquationSystem (called at
hcurl_formulation.cpp line 177; its body is in the absent
equation_system.cpp) clears and re-applies every kernel contribution to
the block operator and right-hand side forms. -/
def updateSystem (es : EqSystemModel) (inp : EqInputs)
    (forms : (ℕ → ℚ) × (ℕ → ℚ)) : (ℕ → ℚ) × (ℕ → ℚ) :=
  (applyKernels es.blfKernels inp (clearForm forms.1),
   applyKernels es.lfKernels inp (clearForm forms.2))

/-- Claim C7: invoking updateSystem twice with identical inputs produces
exactly the same assembled block operator and right-hand side as invoking
it once; because every pass clears the forms before re-applying the
kernels, re-application accumulates no duplicate terms. -/
theorem c7_update_idempotent (es : EqSystemModel) (inp : EqInputs)
    (forms : (ℕ → ℚ) × (ℕ → ℚ)) :
    updateSystem es inp (updateSystem es inp forms) =
      updateSystem es inp forms := rfl

/-- Modelled from the spec: FormLinearSystem (called at
hcurl_formulation.cpp line 179; its body is in the absent
equation_system.cpp) applies essential-boundary elimination and produces
the block unknown vector, whose essential entries carry the imposed
boundary values. -/
def formLinearSystem (ess : ℕ → Bool) (imposed x : ℕ → ℚ) : ℕ → ℚ :=
  fun i => if ess i then imposed i else x i

/-- Modelled from the spec: RecoverSolution (called at
hcurl_formulation.cpp line 186 as RecoverFEMSolution; its body is in the
absent equation_system.cpp) scatters the solved block vector back into the
fields, undoing the essential-DOF elimination: unconstrained entries come
from the solved vector, essential entries from the imposed boundary
values. -/
def recoverSolution (ess : ℕ → Bool) (imposed solved : ℕ → ℚ) : ℕ → ℚ :=
  fun i => if ess i then imposed i else solved i

/-- Claim C8: RecoverSolution composed with FormLinearSystem is a round
trip through essential-DOF elimination.  For any solver whatsoever applied
to the formed system, every unconstrained DOF of the recovered field equals
the solved value, and every essential DOF equals the imposed boundary
value. -/
theorem c8_recover_roundtrip (ess : ℕ → Bool) (imposed x : ℕ → ℚ)
    (solver : (ℕ → ℚ) → ℕ → ℚ) (i : ℕ) :
    (ess i = false →
      recoverSolution ess imposed (solver (formLinearSystem ess imposed x)) i
        = solver (formLinearSystem ess imposed x) i) ∧
    (ess i = true →
      recoverSolution ess imposed (solver (formLinearSystem ess imposed x)) i
        = imposed i) := by
  constructor
  · intro h
    simp [recoverSolution, h]
  · intro h
    simp [recoverSolution, h]

/-- Claim C8 witness: with DOF 0 essential (imposed value 7) and DOF 1
unconstrained, and the identity as the block solver, recovery returns the
solved value at DOF 1 and the imposed value at DOF 0. -/
theorem c8_witness :
    recoverSolution (fun i => decide (i = 0)) (fun _ => 7)
        (id (formLinearSystem (fun i => decide (i = 0)) (fun _ => 7)
          (fun _ => 3))) 1
      = id (formLinearSystem (fun i => decide (i = 0)) (fun _ => 7)
          (fun _ => 3)) 1 ∧
    recoverSolution (fun i => decide (i = 0)) (fun _ => 7)
        (id (formLinearSystem (fun i => decide (i = 0)) (fun _ => 7)
          (fun _ => 3))) 0
      = 7 :=
  ⟨(c8_recover_roundtrip (fun i => decide (i = 0)) (fun _ => 7) (fun _ => 3)
      id 1).1 rfl,
   (c8_recover_roundtrip (fun i => decide (i = 0)) (fun _ => 7) (fun _ => 3)
      id 0).2 rfl⟩

/- ## ClosedCoilSolver isInDomain (closed_coil.cpp lines 313 to 328). -/

/-- ClosedCoilSolver isInDomain over a domain attribute list: negative
element indices (ghost elements) are rejected immediately; otherwise the
loop sets verify whenever the element attribute equals a listed attribute.
The mesh is modelled by its element-attribute function. -/
def isInDomain (el : ℤ) (dom : List ℤ) (attr : ℤ → ℤ) : Bool :=
  if el < 0 then false
  else dom.foldl (fun verify sd => if attr el = sd then true else verify) false

lemma isInDomain_foldl (a : ℤ) (b : Bool) :
    ∀ dom : List ℤ,
      dom.foldl (fun verify sd => if a = sd then true else verify) b
        = (b || decide (a ∈ dom))
  | [] => by simp
  | x :: xs => by
      rw [List.foldl_cons, isInDomain_foldl a _ xs]
      by_cases h : a = x <;> simp [h, List.mem_cons]

/-- Claim C10: for every domain attribute list, mesh and element index,
isInDomain returns false on every negative (ghost) index, and on a
non-negative index returns true exactly when the element attribute is one
of the listed attributes. -/
theorem c10_isInDomain (el : ℤ) (dom : List ℤ) (attr : ℤ → ℤ) :
    (el < 0 → isInDomain el dom attr = false) ∧
    (0 ≤ el → (isInDomain el dom attr = true ↔ attr el ∈ dom)) := by
  constructor
  · intro h
    simp [isInDomain, h]
  · intro h
    have hn : ¬ el < 0 := not_lt.mpr h
    unfold isInDomain
    rw [if_neg hn, isInDomain_foldl]
    simp

/-- Claim C10 witness: the ghost element -1 is never in a domain, and
element 2 with attribute 2 is in the domain list [2, 5]. -/
theorem c10_witness :
    isInDomain (-1) [2, 5] (fun z => z) = false ∧
    (isInDomain 2 [2, 5] (fun z => z) = true ↔ (2 : ℤ) ∈ [2, 5]) :=
  ⟨(c10_isInDomain (-1) [2, 5] (fun z => z)).1 (by norm_num),
   (c10_isInDomain 2 [2, 5] (fun z => z)).2 (by norm_num)⟩
